import Mathlib

/-! Shallow embedding of `src/doom/dukeMain.py` (package `doom`), the physical-model
assembly for diffuse boosted-dark-matter fluxes, together with proofs that settle the
frozen claims about it.  Python floats are modelled by `ℝ`; Python `float ** float` by
`Real.rpow`; the `None` sentinel for the annihilation cross section by `Option ℝ`;
code that can raise by `Except PyErr`. -/

namespace Doom

/-- Python runtime errors that the embedded code can raise: the library's own
`FlagError` from `sysmsg`, plus `TypeError`/`NameError` raised by the interpreter. -/
inductive PyErr where
  | flagError
  | typeError
  | nameError
deriving DecidableEq

/-- A Python value passed where a boolean flag is expected.  The source tests
`flag is True`, then `flag is False`, and otherwise raises `FlagError`; `nonBool`
stands for every object that is neither `True` nor `False`. -/
inductive Flag where
  | pyTrue
  | pyFalse
  | nonBool
deriving DecidableEq

/-- Modelled from the spec: the constants provider (`doom.constant`, not under `src/`)
"must supply solar mass (kg and Msun-normalized), kpc-to-cm, year-to-seconds,
erg-to-MeV, reference Milky-Way halo mass/radius, SN neutrino luminosity, and the
global normalization constant".  The spec names the constants but fixes no numeric
values, so they are carried as a parameter of the embedding. -/
structure Consts where
  Msun : ℝ
  Msun_kg : ℝ
  kpc2cm : ℝ
  year2Seconds : ℝ
  erg2MeV : ℝ
  Lv : ℝ
  Mmw : ℝ
  Rhalo : ℝ
  MagicalNumber : ℝ

/-- Modelled from the spec: a concrete instance of the constants provider with
standard physical values (solar mass in MeV and in kg, cm per kpc, seconds per
Julian-ish year, MeV per erg, a 3e52 erg/s neutrino luminosity, and a Milky-Way
stellar mass chosen so that the code's default `eta = 24.3856` times `Mmw` is the
1e12 Msun Milky-Way halo mass used by `massBH`). -/
noncomputable def consts0 : Consts :=
  ⟨1.1157e60, 1.989e30, 3.0857e21, 3.1536e7, 6.2415e5, 3e52, 1e12/24.3856, 240, 1⟩

/-- The fixed inner spike scale `self.rh = 0.65e-3` kpc of class `haloSpike`. -/
noncomputable def rh : ℝ := 0.65e-3

/-- NFW DM density `rhox(r, rhos, rs)` (dukeMain.py line 146). -/
noncomputable def rhox (r rhos rs : ℝ) : ℝ :=
  rhos/(r/rs*(1 + r/rs)^2)

/-- Characteristic radius scaled from the MW, `get_rs(MG, rsMW)` (line 179). -/
noncomputable def get_rs (c : Consts) (MG rsMW : ℝ) : ℝ :=
  (MG/c.Mmw) ^ ((1:ℝ)/3)*rsMW

/-- SMBH mass estimate `massBH(MG, eta)` (line 222). -/
noncomputable def massBH (MG eta : ℝ) : ℝ :=
  7e7*(eta*MG/1e12) ^ ((4:ℝ)/3)

/-- Schwarzschild radius in kpc, `radiusSchwarzchild(mBH)` (line 239). -/
noncomputable def radiusSchwarzchild (c : Consts) (mBH : ℝ) : ℝ :=
  mBH*c.Msun_kg*1.48e-25/c.kpc2cm

/-- The closed-form antiderivative `_fa(r, alpha)` inside `haloSpike._normN`
(line 57); `Rs` is the enclosing Schwarzschild radius. -/
noncomputable def fa (Rs r alpha : ℝ) : ℝ :=
  (r^3/(3 - alpha) + 12*Rs*r^2/(alpha - 2) - 48*Rs^2*r/(alpha - 1) + 64*Rs^3/alpha)/r ^ alpha

/-- Spike normalization `haloSpike._normN(mBH)` (line 40): the antiderivative is
evaluated at `rh` and at `ri = 4*Rs` with `alpha = 3/2`. -/
noncomputable def normN (c : Consts) (mBH : ℝ) : ℝ :=
  mBH*c.Msun/4/Real.pi/
    (fa (radiusSchwarzchild c mBH) rh ((3:ℝ)/2) -
      fa (radiusSchwarzchild c mBH) (4*radiusSchwarzchild c mBH) ((3:ℝ)/2))

/-- Spike radius `haloSpike._radiusSpike(mBH, rhos, rs)` (line 64); the local
`rhos = rhos*kpc2cm**3` rescaling is inlined. -/
noncomputable def radiusSpike (c : Consts) (mBH rhos rs : ℝ) : ℝ :=
  (normN c mBH/(rhos*c.kpc2cm^3)/rs) ^ ((3:ℝ)/4)*rh ^ ((5:ℝ)/8)

/-- Piecewise spike density `haloSpike._rhoPrime(r, mBH, rhos, rs)` (line 82) with the
locals `ri = 4*Rs`, `rhoN = N/rh**(3/2)` and `rhoNp = rhoN*(rh/Rsp)**(7/3)` inlined. -/
noncomputable def rhoPrime (c : Consts) (r mBH rhos rs : ℝ) : ℝ :=
  (if 4*radiusSchwarzchild c mBH ≤ r ∧ r < rh then
      normN c mBH/rh ^ ((3:ℝ)/2)*(1 - 4*radiusSchwarzchild c mBH/r)^3*(rh/r) ^ ((3:ℝ)/2)
    else
      normN c mBH/rh ^ ((3:ℝ)/2)*(rh/radiusSpike c mBH rhos rs) ^ ((7:ℝ)/3)*
        (radiusSpike c mBH rhos rs/r) ^ ((7:ℝ)/3))/c.kpc2cm^3

/-- Spiky number density `haloSpike._nxSpike(r, mx, MG, sigv, tBH, rhosMW, rsMW, eta)`
(line 95).  The locals `mBH = massBH(MG, eta)`, `ri = 4*Rs`, `rs = get_rs(MG, rsMW)`,
`Rsp` and (in the annihilation branch) `sigv = sigv*1e-26`,
`rhoc = mx/sigv/tBH/year2Seconds` are inlined.  In Python each branch first tests
`r < ri`, then `ri <= r < Rsp` (whose first half is implied by the failed first
test), then falls through. -/
noncomputable def nxSpike (c : Consts) (r mx MG : ℝ) (sigv : Option ℝ)
    (tBH rhosMW rsMW eta : ℝ) : ℝ :=
  match sigv with
  | none =>
    if r < 4*radiusSchwarzchild c (massBH MG eta) then 0
    else if r < radiusSpike c (massBH MG eta) rhosMW (get_rs c MG rsMW) then
      rhoPrime c r (massBH MG eta) rhosMW (get_rs c MG rsMW)/mx
    else rhox r rhosMW (get_rs c MG rsMW)/mx
  | some sigv =>
    if r < 4*radiusSchwarzchild c (massBH MG eta) then 0
    else if r < radiusSpike c (massBH MG eta) rhosMW (get_rs c MG rsMW) then
      rhoPrime c r (massBH MG eta) rhosMW (get_rs c MG rsMW)*
          (mx/(sigv*1e-26)/tBH/c.year2Seconds)/
          (rhoPrime c r (massBH MG eta) rhosMW (get_rs c MG rsMW) +
            mx/(sigv*1e-26)/tBH/c.year2Seconds)/mx
    else
      rhox r rhosMW (get_rs c MG rsMW)*(mx/(sigv*1e-26)/tBH/c.year2Seconds)/
          (rhox r rhosMW (get_rs c MG rsMW) + mx/(sigv*1e-26)/tBH/c.year2Seconds)/mx

/-- Standalone NFW number density `nxNFW(r, mx, rhosMW, rsMW, MG)` (line 195).  Its
`MG is None` branch executes `rr = r/rs` where no local `rs` exists, so the
interpreter raises `NameError` there (the defect the spec flags as an open
question). -/
noncomputable def nxNFW (c : Consts) (r mx rhosMW rsMW : ℝ) (MG : Option ℝ) :
    Except PyErr ℝ :=
  match MG with
  | none => .error .nameError
  | some MG => .ok (rhox r rhosMW (get_rs c MG rsMW)/mx)

/-- Top-level `dmNumberDensity(r, mx, MG, is_spike, sigv, tBH, rhosMW, rsMW, eta)`
(line 256).  The `is_spike is False` branch executes
`nxNFW(r, mx, rhosMW, rsMW, MG, eta)` — six positional arguments for a function whose
signature `nxNFW(r, mx, rhosMW=184, rsMW=24.42, MG=None)` accepts at most five, so
the interpreter raises `TypeError` before `nxNFW`'s body runs. -/
noncomputable def dmNumberDensity (c : Consts) (r mx MG : ℝ) (is_spike : Flag)
    (sigv : Option ℝ) (tBH rhosMW rsMW eta : ℝ) : Except PyErr ℝ :=
  match is_spike with
  | .pyTrue => .ok (nxSpike c r mx MG sigv tBH rhosMW rsMW eta)
  | .pyFalse => .error .typeError
  | .nonBool => .error .flagError

/-- Distance from the scattering point to the galactic center, `_get_r(l, R, theta)`
(line 289). -/
noncomputable def get_r (l R theta : ℝ) : ℝ :=
  Real.sqrt (l^2 + R^2 - 2*l*R*Real.cos theta)

/-- Required incoming SN neutrino energy `snNuEenergy(Tx, mx, thetaCM)` (line 306)
with the local `c2 = cos(thetaCM/2)**2` inlined. -/
noncomputable def snNuEenergy (Tx mx thetaCM : ℝ) : ℝ :=
  Tx*(1 + Real.sqrt (1 + 2*(Real.cos (thetaCM/2)^2)*mx/Tx))/2/(Real.cos (thetaCM/2)^2)

/-- Jacobian `_dEv(Tx, mx, thetaCM)` (line 324) with `c2` and `x = mx/Tx` inlined. -/
noncomputable def dEv (Tx mx thetaCM : ℝ) : ℝ :=
  (1 + (1 + Real.cos (thetaCM/2)^2*(mx/Tx))/Real.sqrt (2*(Real.cos (thetaCM/2)^2)*(mx/Tx) + 1))/
    2/(Real.cos (thetaCM/2)^2)

/-- BDM velocity `vBDM(Tx, mx)` in units of c (line 343). -/
noncomputable def vBDM (Tx mx : ℝ) : ℝ :=
  Real.sqrt (Tx*(Tx + 2*mx))/(Tx + mx)

/-- Energy-independent isotropic CM cross section `dsigma0(Ev, thetaCM)` (line 359). -/
noncomputable def dsigma0 (Ev thetaCM : ℝ) : ℝ :=
  1e-35/4/Real.pi

/-- Guarded Fermi-Dirac shape, the inner `_fv(Ev, Tv)` of `supernovaNuFlux`
(line 394): exactly 0 once the exponent `Ev/Tv - 3` exceeds the float64 cutoff. -/
noncomputable def fv (Ev Tv : ℝ) : ℝ :=
  if Ev/Tv - 3 ≤ 709.782 then (1/18.9686)*Tv^(-3 : ℤ)*(Ev^2/(Real.exp (Ev/Tv - 3) + 1))
  else 0

/-- SN neutrino flux `supernovaNuFlux(Ev, l)` after propagating `l` kpc (line 377),
with the locals `Lv`, `l` (in cm), the three species distributions and `L` inlined. -/
noncomputable def supernovaNuFlux (c : Consts) (Ev l : ℝ) : ℝ :=
  c.Lv*c.erg2MeV/(4*Real.pi*(l*c.kpc2cm)^2)*
    (fv Ev 2.76/11 + fv Ev 4.01/16 + 4*(fv Ev 6.26/25))

/-- Modelled from the spec: the galaxy-population provider
(`doom.galMassFunction` and `doom.galDensity`, not under `src/`) supplies
`dnG(logMass, z)`, the dimensionless expansion rate `E(z)`, the star-formation-rate
density `rhoDotSFR(z)`, and the fitted/direct baryonic area densities.  The spec
gives their signatures only, so they are carried as opaque function parameters. -/
structure GalaxyModel where
  dnG : ℝ → ℝ → ℝ
  E : ℝ → ℝ
  rhoDotSFR : ℝ → ℝ
  galacticAreaDensityFit : ℝ × ℝ → ℝ
  galacticAreaDensity : ℝ → ℝ × ℝ → ℝ → ℝ

/-- A trivial instance of the galaxy-population provider (all components
constantly 1), used to exhibit concrete behaviour of the convolution layer. -/
noncomputable def g1 : GalaxyModel :=
  ⟨fun _ _ => 1, fun _ => 1, fun _ => 1, fun _ => 1, fun _ _ _ => 1⟩

/-- Per-galaxy point spectrum `dbdmSpectrum._diffSpectrum` (line 420): zero for
degenerate geometry `r < 1e-8`, otherwise the product of measure factors,
number density, cross section, flux and Jacobian-weighted velocity.  Exceptions
from `dmNumberDensity` propagate. -/
noncomputable def diffSpectrum (c : Consts) (Tx mx MG R l theta thetaCM : ℝ)
    (is_spike : Flag) (sigv : Option ℝ) (tBH rhosMW rsMW eta : ℝ) : Except PyErr ℝ :=
  if 1e-8 ≤ get_r l R theta then
    (dmNumberDensity c (get_r l R theta) mx MG is_spike sigv tBH rhosMW rsMW eta).map
      (fun nx =>
        l^2*Real.sin theta*Real.sin thetaCM*nx*dsigma0 (snNuEenergy Tx mx thetaCM) thetaCM*
          supernovaNuFlux c (snNuEenergy Tx mx thetaCM) l*(dEv Tx mx thetaCM*vBDM Tx mx))
  else .ok 0

/-- Unweighted redshifted spectrum `dbdmSpectrum._dbdmSpectrum` (line 434): the
kinetic energy is redshifted to `Txp = (1+z)*Tx`; the contribution is discarded
(set to 0) unless `Txp < 200`; otherwise `_diffSpectrum` is evaluated at `Txp` and
weighted by `MG*dnG(m,z)/E(z)*rhoDotSFR(z)` with `MG = 10**m`. -/
noncomputable def dbdmSpectrumUnweighted (c : Consts) (g : GalaxyModel)
    (z m Tx mx R l theta thetaCM : ℝ) (is_spike : Flag) (sigv : Option ℝ)
    (tBH rhosMW rsMW eta : ℝ) : Except PyErr ℝ :=
  if (1 + z)*Tx < 200 then
    (diffSpectrum c ((1 + z)*Tx) mx ((10:ℝ) ^ m) R l theta thetaCM is_spike sigv
        tBH rhosMW rsMW eta).map
      (fun s => (10:ℝ) ^ m*g.dnG m z/g.E z*g.rhoDotSFR z*s)
  else .ok 0

/-- Weighted spectrum `dbdmSpectrum._dbdmSpectrumWeighted` (line 446).  Note the
source passes the un-redshifted `Tx` to `_diffSpectrum` here, and validates the
`usefit` flag only after the `Txp < 200` test has passed. -/
noncomputable def dbdmSpectrumWeighted (c : Consts) (g : GalaxyModel)
    (z m Tx mx R l theta thetaCM : ℝ) (is_spike : Flag) (sigv : Option ℝ)
    (tBH rhosMW rsMW eta : ℝ) (usefit : Flag) : Except PyErr ℝ :=
  if (1 + z)*Tx < 200 then
    match usefit with
    | .pyTrue =>
      (diffSpectrum c Tx mx ((10:ℝ) ^ m) R l theta thetaCM is_spike sigv
          tBH rhosMW rsMW eta).map
        (fun s => 2*Real.pi*R*g.galacticAreaDensityFit (R, m)*g.dnG m z/g.E z*
          g.rhoDotSFR z*s)
    | .pyFalse =>
      (diffSpectrum c Tx mx ((10:ℝ) ^ m) R l theta thetaCM is_spike sigv
          tBH rhosMW rsMW eta).map
        (fun s => 2*Real.pi*R*g.galacticAreaDensity R (-10, 10) ((10:ℝ) ^ m)*g.dnG m z/
          g.E z*g.rhoDotSFR z*s)
    | .nonBool => .error .flagError
  else .ok 0

/-- Dispatcher `dbdmSpectrum.__call__` (line 466): selects the weighted or
unweighted spectrum by the `is_weighted` flag and raises `FlagError` otherwise. -/
noncomputable def dbdmSpectrumCall (c : Consts) (g : GalaxyModel)
    (z m Tx mx R l theta thetaCM : ℝ) (is_spike is_weighted : Flag) (sigv : Option ℝ)
    (tBH rhosMW rsMW eta : ℝ) (usefit : Flag) : Except PyErr ℝ :=
  match is_weighted with
  | .pyTrue =>
    dbdmSpectrumWeighted c g z m Tx mx R l theta thetaCM is_spike sigv
      tBH rhosMW rsMW eta usefit
  | .pyFalse =>
    dbdmSpectrumUnweighted c g z m Tx mx R l theta thetaCM is_spike sigv
      tBH rhosMW rsMW eta
  | .nonBool => .error .flagError

/-- The external adaptive integrator (the `vegas` dependency, out of scope per the
spec): given a rectangular domain and an integrand over sample points, it produces
a mean estimate; integrand exceptions propagate through it. -/
def Integrator : Type :=
  List (ℝ × ℝ) → (List ℝ → Except PyErr ℝ) → Except PyErr ℝ

/-- DBDM flux `flux(Tx, mx, ...)` (line 475): validates `is_average`, builds the
6- or 5-dimensional domain, runs the integrator on the spectrum closure, and scales
the mean by `4*pi^2*tau*kpc2cm^3*vBDM(Tx,mx)*preFactor`. -/
noncomputable def flux (c : Consts) (g : GalaxyModel) (I : Integrator)
    (Tx mx R Rmax rmax tau : ℝ) (is_spike is_average : Flag) (sigv : Option ℝ)
    (tBH rhosMW rsMW eta : ℝ) (usefit : Flag) : Except PyErr ℝ :=
  match is_average with
  | .pyTrue =>
    (I [(0, 8), (6, 12), (0, Rmax), (0, Rmax + rmax), (0, Real.pi), (0, Real.pi)]
        (fun x => dbdmSpectrumCall c g (x.getD 0 0) (x.getD 1 0) Tx mx (x.getD 2 0)
          (x.getD 3 0) (x.getD 4 0) (x.getD 5 0) is_spike is_average sigv
          tBH rhosMW rsMW eta usefit)).map
      (fun result => 4*Real.pi^2*tau*result*c.kpc2cm^3*vBDM Tx mx*c.MagicalNumber)
  | .pyFalse =>
    (I [(0, 8), (6, 12), (0, Rmax + rmax), (0, Real.pi), (0, Real.pi)]
        (fun x => dbdmSpectrumCall c g (x.getD 0 0) (x.getD 1 0) Tx mx R
          (x.getD 2 0) (x.getD 3 0) (x.getD 4 0) is_spike is_average sigv
          tBH rhosMW rsMW eta usefit)).map
      (fun result => 4*Real.pi^2*tau*result*c.kpc2cm^3*vBDM Tx mx*c.MagicalNumber)
  | .nonBool => .error .flagError

/-- DBDM event rate `event(mx, ...)` (line 526): like `flux` but with an extra `Tx`
axis, the velocity factor inside the integrand, and no standalone velocity factor
in the final scaling. -/
noncomputable def event (c : Consts) (g : GalaxyModel) (I : Integrator)
    (mx TxLo TxHi R Rmax rmax tau : ℝ) (is_spike is_average : Flag) (sigv : Option ℝ)
    (tBH rhosMW rsMW eta : ℝ) (usefit : Flag) : Except PyErr ℝ :=
  match is_average with
  | .pyTrue =>
    (I [(0, 8), (6, 12), (0, Rmax), (0, Rmax + rmax), (0, Real.pi), (0, Real.pi),
        (TxLo, TxHi)]
        (fun x => (dbdmSpectrumCall c g (x.getD 0 0) (x.getD 1 0) (x.getD 6 0) mx
          (x.getD 2 0) (x.getD 3 0) (x.getD 4 0) (x.getD 5 0) is_spike is_average sigv
          tBH rhosMW rsMW eta usefit).map (fun s => s*vBDM (x.getD 6 0) mx))).map
      (fun result => 4*Real.pi^2*tau*result*c.kpc2cm^3*c.MagicalNumber)
  | .pyFalse =>
    (I [(0, 8), (6, 12), (0, Rmax + rmax), (0, Real.pi), (0, Real.pi), (TxLo, TxHi)]
        (fun x => (dbdmSpectrumCall c g (x.getD 0 0) (x.getD 1 0) (x.getD 5 0) mx R
          (x.getD 2 0) (x.getD 3 0) (x.getD 4 0) is_spike is_average sigv
          tBH rhosMW rsMW eta usefit).map (fun s => s*vBDM (x.getD 5 0) mx))).map
      (fun result => 4*Real.pi^2*tau*result*c.kpc2cm^3*c.MagicalNumber)
  | .nonBool => .error .flagError

/-- A Milky-Way-like galactic stellar mass: with the code's default
`eta = 24.3856` it makes `eta*MG` exactly the `1e12` Msun halo of `massBH`. -/
noncomputable def MG0 : ℝ := 1e12/24.3856

/-- Shorthand for the Schwarzschild radius of the `7e7` Msun black hole. -/
noncomputable def Rs0 : ℝ := radiusSchwarzchild consts0 7e7

/-! Generic helpers for bounding real powers with rational exponents via natural
powers: `x ^ e` with `e = p/q` is compared through `q`-th powers. -/

/-- Raising `x ^ e` to the `q`-th power recovers `x ^ p` when `e*q = p`. -/
theorem rpow_pow_cancel {x e : ℝ} (p q : ℕ) (hx : 0 < x) (he : e*(q:ℝ) = (p:ℝ)) :
    (x ^ e) ^ q = x ^ p := by
  rw [← Real.rpow_natCast (x ^ e) q, ← Real.rpow_mul hx.le, he, Real.rpow_natCast]

/-- Upper bound on a rational power from an inequality of natural powers. -/
theorem rpow_le_of_pow_le {x y e : ℝ} (p q : ℕ) (hx : 0 < x) (hy : 0 ≤ y)
    (hq : q ≠ 0) (he : e*(q:ℝ) = (p:ℝ)) (h : x ^ p ≤ y ^ q) : x ^ e ≤ y := by
  refine le_of_pow_le_pow_left hq hy ?_
  rw [rpow_pow_cancel p q hx he]
  exact h

/-- Lower bound on a rational power from an inequality of natural powers. -/
theorem le_rpow_of_pow_le {x y e : ℝ} (p q : ℕ) (hx : 0 < x) (hy : 0 ≤ y)
    (hq : q ≠ 0) (he : e*(q:ℝ) = (p:ℝ)) (h : y ^ q ≤ x ^ p) : y ≤ x ^ e := by
  refine le_of_pow_le_pow_left hq (Real.rpow_pos_of_pos hx e).le ?_
  rw [rpow_pow_cancel p q hx he]
  exact h

/-! Concrete numeric facts about the `consts0` instance at the black-hole mass
`7e7` Msun, which is `massBH MG0 24.3856` for the Milky-Way-like stellar mass
`MG0`.  These bounds feed the witnesses and counterexamples. -/

theorem massBH_MG0 : massBH MG0 24.3856 = 7e7 := by
  unfold massBH MG0
  rw [show (24.3856*(1e12/24.3856)/1e12 : ℝ) = 1 by norm_num, Real.one_rpow]
  norm_num

theorem get_rs_MG0 : get_rs consts0 MG0 24.42 = 24.42 := by
  unfold get_rs MG0
  rw [show ((1e12/24.3856)/consts0.Mmw : ℝ) = 1 by
      rw [show consts0.Mmw = 1e12/24.3856 from rfl]; norm_num,
    Real.one_rpow, one_mul]

theorem Rs0_lb : 6.677e-9 < Rs0 := by
  unfold Rs0 radiusSchwarzchild
  rw [show consts0.Msun_kg = 1.989e30 from rfl, show consts0.kpc2cm = 3.0857e21 from rfl]
  norm_num

theorem Rs0_ub : Rs0 < 6.678e-9 := by
  unfold Rs0 radiusSchwarzchild
  rw [show consts0.Msun_kg = 1.989e30 from rfl, show consts0.kpc2cm = 3.0857e21 from rfl]
  norm_num

theorem Rs0_pos : 0 < Rs0 := lt_trans (by norm_num) Rs0_lb

theorem rh_val : rh = 0.65e-3 := rfl

theorem rh_pos : (0:ℝ) < rh := by rw [rh_val]; norm_num

/-- The antiderivative `_fa` evaluated at the inner radius `ri = 4*Rs` is the
negative quantity `-(256/3)*Rs^(3/2)`. -/
theorem fa_ri (Rs : ℝ) (hRs : 0 < Rs) :
    fa Rs (4*Rs) ((3:ℝ)/2) = -(256/3)*Rs ^ ((3:ℝ)/2) := by
  have hp : (0:ℝ) < Rs ^ ((3:ℝ)/2) := Real.rpow_pos_of_pos hRs _
  have h2 : (4:ℝ) ^ ((3:ℝ)/2) = 8 := by
    rw [show (4:ℝ) = 2^(2:ℕ) by norm_num, ← Real.rpow_natCast 2 2,
      ← Real.rpow_mul (by norm_num : (0:ℝ) ≤ 2),
      show ((2:ℕ):ℝ)*((3:ℝ)/2) = ((3:ℕ):ℝ) by norm_num, Real.rpow_natCast]
    norm_num
  have h4 : ((4:ℝ)*Rs) ^ ((3:ℝ)/2) = 8*Rs ^ ((3:ℝ)/2) := by
    rw [Real.mul_rpow (by norm_num) hRs.le, h2]
  have h3 : Rs^(3:ℕ) = Rs ^ ((3:ℝ)/2)*Rs ^ ((3:ℝ)/2) := by
    rw [← Real.rpow_add hRs, ← Real.rpow_natCast Rs 3]
    norm_num
  unfold fa
  rw [h4, div_eq_iff (by positivity)]
  have hnum : (4*Rs)^3/(3 - (3:ℝ)/2) + 12*Rs*(4*Rs)^2/((3:ℝ)/2 - 2) -
      48*Rs^2*(4*Rs)/((3:ℝ)/2 - 1) + 64*Rs^3/((3:ℝ)/2) = -(2048/3)*Rs^(3:ℕ) := by
    ring
  rw [hnum, h3]
  ring

/-- The antiderivative `_fa` evaluated at `rh`, as a rational function of `Rs`
over the single power `rh^(3/2)`. -/
theorem fa_rh (Rs : ℝ) :
    fa Rs rh ((3:ℝ)/2) =
      (2/3*rh^3 - 24*Rs*rh^2 - 96*Rs^2*rh + 128/3*Rs^3)/rh ^ ((3:ℝ)/2) := by
  unfold fa
  ring

theorem rh32_lb : 1.6e-5 ≤ rh ^ ((3:ℝ)/2) :=
  le_rpow_of_pow_le 3 2 rh_pos (by norm_num) (by norm_num) (by norm_num)
    (by rw [rh_val]; norm_num)

theorem rh32_ub : rh ^ ((3:ℝ)/2) ≤ 1.66e-5 :=
  rpow_le_of_pow_le 3 2 rh_pos (by norm_num) (by norm_num) (by norm_num)
    (by rw [rh_val]; norm_num)

theorem Rs032_ub : Rs0 ^ ((3:ℝ)/2) ≤ 5.5e-13 := by
  refine rpow_le_of_pow_le 3 2 Rs0_pos (by norm_num) (by norm_num) (by norm_num) ?_
  calc Rs0^3 ≤ (6.678e-9)^3 := pow_le_pow_left Rs0_pos.le Rs0_ub.le 3
    _ ≤ ((5.5e-13:ℝ))^2 := by norm_num

theorem fh0_pos : 0 < fa Rs0 rh ((3:ℝ)/2) := by
  rw [fa_rh]
  apply div_pos ?_ (Real.rpow_pos_of_pos rh_pos _)
  have hsq : Rs0^2 ≤ (6.678e-9)^2 := pow_le_pow_left Rs0_pos.le Rs0_ub.le 2
  have hcube : 0 ≤ Rs0^3 := pow_nonneg Rs0_pos.le 3
  rw [rh_val]
  nlinarith [Rs0_ub, Rs0_pos]

theorem fh0_ub : fa Rs0 rh ((3:ℝ)/2) ≤ 1.145e-5 := by
  rw [fa_rh]
  have hnum : 2/3*rh^3 - 24*Rs0*rh^2 - 96*Rs0^2*rh + 128/3*Rs0^3 ≤ 1.831e-10 := by
    have hsq : 0 ≤ Rs0^2 := sq_nonneg _
    have hcube : Rs0^3 ≤ (6.678e-9)^3 := pow_le_pow_left Rs0_pos.le Rs0_ub.le 3
    rw [rh_val]
    nlinarith [Rs0_pos]
  calc (2/3*rh^3 - 24*Rs0*rh^2 - 96*Rs0^2*rh + 128/3*Rs0^3)/rh ^ ((3:ℝ)/2)
      ≤ 1.831e-10/1.6e-5 := div_le_div (by norm_num) hnum (by norm_num) rh32_lb
    _ ≤ 1.145e-5 := by norm_num

/-- Positivity and an upper bound for the normalization denominator `fh - fi`. -/
theorem fdiff0_pos : 0 < fa Rs0 rh ((3:ℝ)/2) - fa Rs0 (4*Rs0) ((3:ℝ)/2) := by
  have hfi : fa Rs0 (4*Rs0) ((3:ℝ)/2) = -(256/3)*Rs0 ^ ((3:ℝ)/2) := fa_ri Rs0 Rs0_pos
  have hp : (0:ℝ) < Rs0 ^ ((3:ℝ)/2) := Real.rpow_pos_of_pos Rs0_pos _
  have := fh0_pos
  rw [hfi]
  nlinarith

theorem fdiff0_ub :
    fa Rs0 rh ((3:ℝ)/2) - fa Rs0 (4*Rs0) ((3:ℝ)/2) ≤ 1.1451e-5 := by
  have hfi : fa Rs0 (4*Rs0) ((3:ℝ)/2) = -(256/3)*Rs0 ^ ((3:ℝ)/2) := fa_ri Rs0 Rs0_pos
  have := fh0_ub
  have := Rs032_ub
  have hp : (0:ℝ) < Rs0 ^ ((3:ℝ)/2) := Real.rpow_pos_of_pos Rs0_pos _
  rw [hfi]
  nlinarith

/-- Lower bound for the spike normalization `N` at `mBH = 7e7` over `consts0`. -/
theorem N0_lb : 5e71 ≤ normN consts0 7e7 := by
  unfold normN
  rw [show radiusSchwarzchild consts0 7e7 = Rs0 from rfl,
    show consts0.Msun = 1.1157e60 from rfl]
  calc (5e71:ℝ) ≤ 7e7*1.1157e60/4/3.15/1.1451e-5 := by norm_num
    _ ≤ 7e7*1.1157e60/4/Real.pi/1.1451e-5 := by
        refine (div_le_div_right (by norm_num : (0:ℝ) < 1.1451e-5)).mpr ?_
        exact (div_le_div_left (by norm_num) (by norm_num) Real.pi_pos).mpr
          Real.pi_lt_d2.le
    _ ≤ 7e7*1.1157e60/4/Real.pi/(fa Rs0 rh ((3:ℝ)/2) - fa Rs0 (4*Rs0) ((3:ℝ)/2)) :=
        (div_le_div_left (by positivity) (by norm_num) fdiff0_pos).mpr fdiff0_ub

theorem N0_pos : 0 < normN consts0 7e7 := lt_of_lt_of_le (by norm_num) N0_lb

/-- Lower bound for `rhoN = N/rh^(3/2)` at `mBH = 7e7` over `consts0`. -/
theorem rhoN0_lb : 3e76 ≤ normN consts0 7e7/rh ^ ((3:ℝ)/2) := by
  calc (3e76:ℝ) ≤ 5e71/1.66e-5 := by norm_num
    _ ≤ 5e71/rh ^ ((3:ℝ)/2) :=
        (div_le_div_left (by norm_num) (by norm_num)
          (Real.rpow_pos_of_pos rh_pos _)).mpr rh32_ub
    _ ≤ normN consts0 7e7/rh ^ ((3:ℝ)/2) :=
        (div_le_div_right (Real.rpow_pos_of_pos rh_pos _)).mpr N0_lb

/-- Lower bound for the spike radius at `mBH = 7e7`, `rhos = 184`, `rs = 24.42`. -/
theorem Rsp0_lb : 4 ≤ radiusSpike consts0 7e7 184 24.42 := by
  unfold radiusSpike
  rw [show consts0.kpc2cm = 3.0857e21 from rfl]
  have hB : 3700 ≤ normN consts0 7e7/(184*(3.0857e21:ℝ)^3)/24.42 := by
    calc (3700:ℝ) ≤ 5e71/(184*(3.0857e21:ℝ)^3)/24.42 := by norm_num
      _ ≤ normN consts0 7e7/(184*(3.0857e21:ℝ)^3)/24.42 := by
          refine (div_le_div_right (by norm_num : (0:ℝ) < 24.42)).mpr ?_
          exact (div_le_div_right (by norm_num)).mpr N0_lb
  have hBpos : (0:ℝ) < normN consts0 7e7/(184*(3.0857e21:ℝ)^3)/24.42 :=
    lt_of_lt_of_le (by norm_num) hB
  have hB34 : 470 ≤ (normN consts0 7e7/(184*(3.0857e21:ℝ)^3)/24.42) ^ ((3:ℝ)/4) := by
    refine le_rpow_of_pow_le 3 4 hBpos (by norm_num) (by norm_num) (by norm_num) ?_
    calc ((470:ℝ))^4 ≤ (3700:ℝ)^3 := by norm_num
      _ ≤ (normN consts0 7e7/(184*(3.0857e21:ℝ)^3)/24.42)^3 :=
          pow_le_pow_left (by norm_num) hB 3
  have hrh58 : 0.01 ≤ rh ^ ((5:ℝ)/8) := by
    refine le_rpow_of_pow_le 5 8 rh_pos (by norm_num) (by norm_num) (by norm_num) ?_
    rw [rh_val]
    norm_num
  calc (4:ℝ) ≤ 470*0.01 := by norm_num
    _ ≤ (normN consts0 7e7/(184*(3.0857e21:ℝ)^3)/24.42) ^ ((3:ℝ)/4)*rh ^ ((5:ℝ)/8) :=
        mul_le_mul hB34 hrh58 (by norm_num)
          (le_trans (by norm_num) hB34)

/-! Sign lemmas for the physics components, used by several claims. -/

theorem fv_nonneg (Ev Tv : ℝ) (hT : 0 < Tv) : 0 ≤ fv Ev Tv := by
  unfold fv
  split
  · have h1 : (0:ℝ) < Tv^(-3 : ℤ) := zpow_pos hT _
    have h2 : 0 < Real.exp (Ev/Tv - 3) + 1 := by positivity
    positivity
  · exact le_refl 0

theorem fv_pos (Ev Tv : ℝ) (hT : 0 < Tv) (hEv : 0 < Ev)
    (hexp : Ev/Tv - 3 ≤ 709.782) : 0 < fv Ev Tv := by
  unfold fv
  rw [if_pos hexp]
  have h1 : (0:ℝ) < Tv^(-3 : ℤ) := zpow_pos hT _
  have h2 : 0 < Real.exp (Ev/Tv - 3) + 1 := by positivity
  positivity

theorem supernovaNuFlux_pos (c : Consts) (Ev l : ℝ) (hLv : 0 < c.Lv)
    (herg : 0 < c.erg2MeV) (hk : 0 < c.kpc2cm) (hl : 0 < l) (hEv : 0 < Ev)
    (h626 : Ev/6.26 - 3 ≤ 709.782) : 0 < supernovaNuFlux c Ev l := by
  unfold supernovaNuFlux
  have hL : 0 < c.Lv*c.erg2MeV/(4*Real.pi*(l*c.kpc2cm)^2) := by positivity
  have ha := fv_nonneg Ev 2.76 (by norm_num)
  have hb := fv_nonneg Ev 4.01 (by norm_num)
  have hx := fv_pos Ev 6.26 (by norm_num) hEv h626
  have hsum : 0 < fv Ev 2.76/11 + fv Ev 4.01/16 + 4*(fv Ev 6.26/25) := by linarith
  exact mul_pos hL hsum

theorem vBDM_pos {Tx mx : ℝ} (hT : 0 < Tx) (hm : 0 ≤ mx) : 0 < vBDM Tx mx := by
  unfold vBDM
  exact div_pos (Real.sqrt_pos.mpr (by nlinarith)) (by linarith)

/-- The BDM velocity rewritten as `sqrt (1 - (mx/(Tx+mx))^2)`. -/
theorem vBDM_sq_form (Tx mx : ℝ) (hT : 0 < Tx) (hm : 0 < mx) :
    vBDM Tx mx = Real.sqrt (1 - (mx/(Tx + mx))^2) := by
  unfold vBDM
  have hTm : 0 < Tx + mx := by linarith
  have hfrac : mx/(Tx + mx) < 1 := by
    rw [div_lt_one hTm]; linarith
  have hfracpos : 0 < mx/(Tx + mx) := div_pos hm hTm
  have hX : 0 ≤ 1 - (mx/(Tx + mx))^2 := by nlinarith
  have key : Tx*(Tx + 2*mx) = (1 - (mx/(Tx + mx))^2)*(Tx + mx)^2 := by
    field_simp
    ring
  rw [key, Real.sqrt_mul hX, Real.sqrt_sq hTm.le, mul_div_assoc,
    div_self (ne_of_gt hTm), mul_one]

theorem vBDM_lt_one {Tx mx : ℝ} (hT : 0 < Tx) (hm : 0 < mx) : vBDM Tx mx < 1 := by
  rw [vBDM_sq_form Tx mx hT hm]
  have hTm : 0 < Tx + mx := by linarith
  have hfracpos : 0 < mx/(Tx + mx) := div_pos hm hTm
  refine (Real.sqrt_lt' one_pos).mpr ?_
  nlinarith

theorem vBDM_strictMono (Tx1 Tx2 mx : ℝ) (h1 : 0 < Tx1) (h12 : Tx1 < Tx2)
    (hm : 0 < mx) : vBDM Tx1 mx < vBDM Tx2 mx := by
  have h2 : 0 < Tx2 := lt_trans h1 h12
  rw [vBDM_sq_form Tx1 mx h1 hm, vBDM_sq_form Tx2 mx h2 hm]
  have hTm1 : 0 < Tx1 + mx := by linarith
  have hTm2 : 0 < Tx2 + mx := by linarith
  have hf2pos : 0 < mx/(Tx2 + mx) := div_pos hm hTm2
  have hf1lt : mx/(Tx1 + mx) < 1 := by rw [div_lt_one hTm1]; linarith
  have hf1pos : 0 < mx/(Tx1 + mx) := div_pos hm hTm1
  have hf12 : mx/(Tx2 + mx) < mx/(Tx1 + mx) :=
    (div_lt_div_left hm hTm2 hTm1).mpr (by linarith)
  have hsq : (mx/(Tx2 + mx))^2 < (mx/(Tx1 + mx))^2 :=
    pow_lt_pow_left hf12 hf2pos.le (by norm_num)
  exact Real.sqrt_lt_sqrt (by nlinarith) (by linarith)

theorem dEv_pos {Tx mx thetaCM : ℝ} (hT : 0 < Tx) (hm : 0 ≤ mx)
    (hc : Real.cos (thetaCM/2) ≠ 0) : 0 < dEv Tx mx thetaCM := by
  unfold dEv
  have hc2 : 0 < Real.cos (thetaCM/2)^2 :=
    lt_of_le_of_ne (sq_nonneg _) (Ne.symm (pow_ne_zero 2 hc))
  have hx : 0 ≤ mx/Tx := div_nonneg hm hT.le
  have harg : 0 < 2*(Real.cos (thetaCM/2)^2)*(mx/Tx) + 1 := by nlinarith
  have hs : 0 < Real.sqrt (2*(Real.cos (thetaCM/2)^2)*(mx/Tx) + 1) :=
    Real.sqrt_pos.mpr harg
  have hnum : 0 < 1 + (1 + Real.cos (thetaCM/2)^2*(mx/Tx))/
      Real.sqrt (2*(Real.cos (thetaCM/2)^2)*(mx/Tx) + 1) := by
    have : 0 < 1 + Real.cos (thetaCM/2)^2*(mx/Tx) := by nlinarith
    positivity
  positivity

theorem dsigma0_pos (Ev thetaCM : ℝ) : 0 < dsigma0 Ev thetaCM := by
  unfold dsigma0
  positivity

theorem rhox_pos (r rhos rs : ℝ) (hr : 0 < r) (hrhos : 0 < rhos) (hrs : 0 < rs) :
    0 < rhox r rhos rs := by
  unfold rhox
  have h1 : 0 < r/rs := div_pos hr hrs
  positivity

theorem radiusSpike_pos (c : Consts) (mBH rhos rs : ℝ) (hN : 0 < normN c mBH)
    (hrhos : 0 < rhos) (hrs : 0 < rs) (hk : 0 < c.kpc2cm) :
    0 < radiusSpike c mBH rhos rs := by
  unfold radiusSpike
  have hrh : (0:ℝ) < rh := rh_pos
  have hbase : 0 < normN c mBH/(rhos*c.kpc2cm^3)/rs := by positivity
  positivity

theorem rhoPrime_pos (c : Consts) (r mBH rhos rs : ℝ) (hk : 0 < c.kpc2cm)
    (hN : 0 < normN c mBH) (hRs : 0 < radiusSchwarzchild c mBH)
    (hr : 4*radiusSchwarzchild c mBH < r) (hrhos : 0 < rhos) (hrs : 0 < rs) :
    0 < rhoPrime c r mBH rhos rs := by
  unfold rhoPrime
  have hrh : (0:ℝ) < rh := rh_pos
  have hr0 : 0 < r := lt_trans (by positivity) hr
  apply div_pos ?_ (by positivity)
  split
  · have h1 : 0 < 1 - 4*radiusSchwarzchild c mBH/r := by
      rw [sub_pos, div_lt_one hr0]; exact hr
    have h2 : 0 < (rh/r) ^ ((3:ℝ)/2) := Real.rpow_pos_of_pos (div_pos hrh hr0) _
    positivity
  · have hRsp : 0 < radiusSpike c mBH rhos rs := radiusSpike_pos c mBH rhos rs hN hrhos hrs hk
    positivity

theorem nxSpike_pos_noAnn (c : Consts) (r mx MG tBH rhosMW rsMW eta : ℝ)
    (hmx : 0 < mx) (hrhos : 0 < rhosMW) (hk : 0 < c.kpc2cm)
    (hrs : 0 < get_rs c MG rsMW) (hN : 0 < normN c (massBH MG eta))
    (hRs : 0 < radiusSchwarzchild c (massBH MG eta))
    (hr : 4*radiusSchwarzchild c (massBH MG eta) < r) :
    0 < nxSpike c r mx MG none tBH rhosMW rsMW eta := by
  have hr0 : 0 < r := lt_trans (by positivity) hr
  simp only [nxSpike]
  rw [if_neg (not_lt.mpr hr.le)]
  split
  · exact div_pos (rhoPrime_pos c r (massBH MG eta) rhosMW (get_rs c MG rsMW)
      hk hN hRs hr hrhos hrs) hmx
  · exact div_pos (rhox_pos r rhosMW (get_rs c MG rsMW) hr0 hrhos hrs) hmx

/-- Harmonic combination with a positive plateau never exceeds the plateau. -/
theorem harmonic_le_plateau (x b : ℝ) (hx : 0 ≤ x) (hb : 0 < b) :
    x*b/(x + b) ≤ b := by
  rcases eq_or_lt_of_le hx with h|h
  · rw [← h]
    simp
    exact hb.le
  · have hxb : 0 < x + b := by linarith
    rw [div_le_iff hxb]
    nlinarith

/-- Harmonic combination is at least half the plateau once `x` dominates it. -/
theorem half_plateau_le_harmonic (x b : ℝ) (hb : 0 < b) (hbx : b ≤ x) :
    b/2 ≤ x*b/(x + b) := by
  have hx : 0 < x := lt_of_lt_of_le hb hbx
  have hxb : 0 < x + b := by linarith
  rw [div_le_div_iff (by norm_num) hxb]
  nlinarith

/-! The claims. -/

/-- Claim C1 (code bug): with `is_spike=False`, `dmNumberDensity` does not return the
NFW number density — the call `nxNFW(r, mx, rhosMW, rsMW, MG, eta)` passes six
positional arguments to the five-parameter `nxNFW` and the interpreter raises
`TypeError`; the intended value (the claim's `rhox(r, rhosMW, get_rs(MG, rsMW))/mx`)
is exactly what `nxNFW` itself would return when given `MG`. -/
theorem claim1_spike_off_raises :
    dmNumberDensity consts0 8.5 100 6e10 Flag.pyFalse none 1e9 184 24.42 24.3856 =
      Except.error PyErr.typeError ∧
    nxNFW consts0 8.5 100 184 24.42 (some 6e10) =
      Except.ok (rhox 8.5 184 (get_rs consts0 6e10 24.42)/100) :=
  ⟨rfl, rfl⟩

/-- Claim C5 (confirmed): inside four Schwarzschild radii of the central black hole
derived from `MG` and `eta`, the spike-mode number density is exactly zero, with or
without an annihilation cross section. -/
theorem claim5_horizon_exclusion (c : Consts) (r mx MG : ℝ) (sigv : Option ℝ)
    (tBH rhosMW rsMW eta : ℝ) (hr0 : 0 < r)
    (hr : r < 4*radiusSchwarzchild c (massBH MG eta)) :
    dmNumberDensity c r mx MG Flag.pyTrue sigv tBH rhosMW rsMW eta = Except.ok 0 := by
  cases sigv with
  | none => simp only [dmNumberDensity, nxSpike, if_pos hr]
  | some s => simp only [dmNumberDensity, nxSpike, if_pos hr]

theorem claim5_witness :
    dmNumberDensity consts0 1e-9 100 MG0 Flag.pyTrue none 1e9 184 24.42 24.3856 =
      Except.ok 0 := by
  apply claim5_horizon_exclusion
  · norm_num
  · rw [massBH_MG0, show radiusSchwarzchild consts0 7e7 = Rs0 from rfl]
    linarith [Rs0_lb]

/-- Claim C6 counterexample: a non-boolean `usefit` does not always raise — when
the redshifted energy guard fails (`Txp >= 200`, here `z = 1`, `Tx = 100`), the
spectrum dispatcher returns the numeric result 0 without ever validating
`usefit`, contradicting the claim's "raise the designated configuration error and
produce no numeric result". -/
theorem claim6_counterexample :
    dbdmSpectrumCall consts0 g1 1 8 100 1 0 1 1 1 Flag.pyTrue Flag.pyTrue none
      1e9 184 24.42 24.3856 Flag.nonBool = Except.ok 0 ∧
    dbdmSpectrumCall consts0 g1 1 8 100 1 0 1 1 1 Flag.pyTrue Flag.pyTrue none
      1e9 184 24.42 24.3856 Flag.nonBool ≠ Except.error PyErr.flagError := by
  have h : dbdmSpectrumCall consts0 g1 1 8 100 1 0 1 1 1 Flag.pyTrue Flag.pyTrue
      none 1e9 184 24.42 24.3856 Flag.nonBool = Except.ok 0 := by
    unfold dbdmSpectrumCall dbdmSpectrumWeighted
    rw [if_neg (by norm_num : ¬(((1:ℝ) + 1)*100 < 200))]
  exact ⟨h, by rw [h]; exact fun hc => Except.noConfusion hc⟩

/-- Claim C6 amended: `dmNumberDensity` raises `FlagError` for any non-boolean
`is_spike`, the spectrum dispatcher for any non-boolean `is_weighted`, and
`flux`/`event` for any non-boolean `is_average`, producing no numeric result; a
non-boolean `usefit`, however, raises only when the weighted path is reached with
`Tx' = (1+z)*Tx < 200` — when `Tx' >= 200` the weighted spectrum returns the
numeric 0 without validating `usefit`.  No flag is ever coerced to a boolean. -/
theorem claim6_flag_validation (c : Consts) (g : GalaxyModel) (I : Integrator)
    (z m Tx mx MG r R l theta thetaCM TxLo TxHi Rmax rmax tau : ℝ)
    (sigv : Option ℝ) (tBH rhosMW rsMW eta : ℝ) (is_spike usefit : Flag) :
    dmNumberDensity c r mx MG Flag.nonBool sigv tBH rhosMW rsMW eta =
      Except.error PyErr.flagError ∧
    dbdmSpectrumCall c g z m Tx mx R l theta thetaCM is_spike Flag.nonBool sigv
      tBH rhosMW rsMW eta usefit = Except.error PyErr.flagError ∧
    ((1 + z)*Tx < 200 →
      dbdmSpectrumWeighted c g z m Tx mx R l theta thetaCM is_spike sigv
        tBH rhosMW rsMW eta Flag.nonBool = Except.error PyErr.flagError) ∧
    (200 ≤ (1 + z)*Tx →
      dbdmSpectrumWeighted c g z m Tx mx R l theta thetaCM is_spike sigv
        tBH rhosMW rsMW eta Flag.nonBool = Except.ok 0) ∧
    flux c g I Tx mx R Rmax rmax tau is_spike Flag.nonBool sigv
      tBH rhosMW rsMW eta usefit = Except.error PyErr.flagError ∧
    event c g I mx TxLo TxHi R Rmax rmax tau is_spike Flag.nonBool sigv
      tBH rhosMW rsMW eta usefit = Except.error PyErr.flagError := by
  refine ⟨rfl, rfl, ?_, ?_, rfl, rfl⟩
  · intro h
    unfold dbdmSpectrumWeighted
    rw [if_pos h]
  · intro h
    unfold dbdmSpectrumWeighted
    rw [if_neg (not_lt.mpr h)]

theorem claim6_witness :
    dbdmSpectrumWeighted consts0 g1 0 8 1 1 0 1 1 1 Flag.pyTrue none
      1e9 184 24.42 24.3856 Flag.nonBool = Except.error PyErr.flagError :=
  (claim6_flag_validation consts0 g1 (fun _ _ => Except.ok 0) 0 8 1 1 1 1 0 1 1 1
    5 100 500 500 10 none 1e9 184 24.42 24.3856 Flag.pyTrue Flag.pyTrue).2.2.1
    (by norm_num)

/-- Claim C7 (confirmed): each Fermi-Dirac species contribution of the supernova
flux is exactly zero once the exponent `Ev/T - 3` exceeds the cutoff `709.782`, and
is strictly positive (in particular finite — the model is real-valued) for `Ev > 0`
when the exponent is at or below the cutoff. -/
theorem claim7_overflow_guard (Ev Tv : ℝ) (hT : 0 < Tv) (hEv : 0 < Ev) :
    (709.782 < Ev/Tv - 3 → fv Ev Tv = 0) ∧
    (Ev/Tv - 3 ≤ 709.782 → 0 < fv Ev Tv) := by
  constructor
  · intro h
    unfold fv
    rw [if_neg (not_le.mpr h)]
  · intro h
    exact fv_pos Ev Tv hT hEv h

theorem claim7_witness : 0 < fv 1 6.26 :=
  (claim7_overflow_guard 1 6.26 (by norm_num) (by norm_num)).2 (by norm_num)

/-- Claim C8 (confirmed): for positive `Tx` and `mx` the BDM velocity lies strictly
between 0 and 1 and is strictly increasing in `Tx`. -/
theorem claim8_velocity_bounds (Tx mx : ℝ) (hT : 0 < Tx) (hm : 0 < mx) :
    0 < vBDM Tx mx ∧ vBDM Tx mx < 1 ∧
      ∀ Tx2, Tx < Tx2 → vBDM Tx mx < vBDM Tx2 mx :=
  ⟨vBDM_pos hT hm.le, vBDM_lt_one hT hm,
    fun Tx2 h => vBDM_strictMono Tx Tx2 mx hT h hm⟩

theorem claim8_witness :
    0 < vBDM 1 1 ∧ vBDM 1 1 < 1 ∧ vBDM 1 1 < vBDM 2 1 := by
  have h := claim8_velocity_bounds 1 1 (by norm_num) (by norm_num)
  exact ⟨h.1, h.2.1, h.2.2 2 (by norm_num)⟩

/-- Claim C9 (confirmed): the point spectrum returns exactly 0 (for any flag value,
so in particular it cannot raise) when the scattering-point distance is below
`1e-8` kpc, and otherwise (in spike mode) returns the product of the measure
factors, number density, cross section, flux, and Jacobian-weighted velocity. -/
theorem claim9_degenerate_geometry (c : Consts) (Tx mx MG R l theta thetaCM : ℝ)
    (is_spike : Flag) (sigv : Option ℝ) (tBH rhosMW rsMW eta : ℝ) :
    (get_r l R theta < 1e-8 →
      diffSpectrum c Tx mx MG R l theta thetaCM is_spike sigv tBH rhosMW rsMW eta =
        Except.ok 0) ∧
    (1e-8 ≤ get_r l R theta →
      diffSpectrum c Tx mx MG R l theta thetaCM Flag.pyTrue sigv tBH rhosMW rsMW eta =
        Except.ok (l^2*Real.sin theta*Real.sin thetaCM*
          nxSpike c (get_r l R theta) mx MG sigv tBH rhosMW rsMW eta*
          dsigma0 (snNuEenergy Tx mx thetaCM) thetaCM*
          supernovaNuFlux c (snNuEenergy Tx mx thetaCM) l*
          (dEv Tx mx thetaCM*vBDM Tx mx))) := by
  constructor
  · intro h
    unfold diffSpectrum
    rw [if_neg (not_le.mpr h)]
  · intro h
    unfold diffSpectrum
    rw [if_pos h]
    rfl

/-- The piecewise spike density is nonnegative whenever the normalization is. -/
theorem rhoPrime_nonneg (c : Consts) (r mBH rhos rs : ℝ) (hk : 0 < c.kpc2cm)
    (hN : 0 ≤ normN c mBH) (hr : 0 < r) (hrhos : 0 < rhos) (hrs : 0 < rs) :
    0 ≤ rhoPrime c r mBH rhos rs := by
  unfold rhoPrime
  have hrh : (0:ℝ) < rh := rh_pos
  apply div_nonneg ?_ (by positivity)
  split
  case isTrue h =>
    have h1 : 0 ≤ 1 - 4*radiusSchwarzchild c mBH/r := by
      rw [sub_nonneg, div_le_one hr]
      exact h.1
    have h3 : 0 ≤ normN c mBH/rh ^ ((3:ℝ)/2) :=
      div_nonneg hN (Real.rpow_nonneg hrh.le _)
    exact mul_nonneg (mul_nonneg h3 (pow_nonneg h1 3))
      (Real.rpow_nonneg (by positivity) _)
  case isFalse h =>
    have hRsp : 0 ≤ radiusSpike c mBH rhos rs := by
      unfold radiusSpike
      exact mul_nonneg (Real.rpow_nonneg (by positivity) _)
        (Real.rpow_nonneg hrh.le _)
    exact mul_nonneg (mul_nonneg (div_nonneg hN (Real.rpow_nonneg hrh.le _))
      (Real.rpow_nonneg (div_nonneg hrh.le hRsp) _))
      (Real.rpow_nonneg (div_nonneg hRsp hr.le) _)

/-- Claim C3 amended (the claim's cap `mx/(sigv*tBH*secondsPerYear)` is off by the
code's `1e-26` rescaling of `sigv` and a factor `mx^2`): with annihilation on, the
returned number density never exceeds `rhoc/mx = 1/(sigv*1e-26*tBH*secondsPerYear)`,
provided the spike normalization is nonnegative (true for physical parameters). -/
theorem claim3_annihilation_cap (c : Consts) (r mx MG sigv tBH rhosMW rsMW eta : ℝ)
    (hr : 0 < r) (hmx : 0 < mx) (hsigv : 0 < sigv) (htBH : 0 < tBH)
    (hY : 0 < c.year2Seconds) (hk : 0 < c.kpc2cm) (hrhos : 0 < rhosMW)
    (hrs : 0 < get_rs c MG rsMW) (hN : 0 ≤ normN c (massBH MG eta)) :
    dmNumberDensity c r mx MG Flag.pyTrue (some sigv) tBH rhosMW rsMW eta =
      Except.ok (nxSpike c r mx MG (some sigv) tBH rhosMW rsMW eta) ∧
    nxSpike c r mx MG (some sigv) tBH rhosMW rsMW eta ≤
      1/(sigv*1e-26*tBH*c.year2Seconds) := by
  refine ⟨rfl, ?_⟩
  have hrhoc : 0 < mx/(sigv*1e-26)/tBH/c.year2Seconds := by positivity
  have key : ∀ x : ℝ, 0 ≤ x →
      x*(mx/(sigv*1e-26)/tBH/c.year2Seconds)/
        (x + mx/(sigv*1e-26)/tBH/c.year2Seconds)/mx ≤
        1/(sigv*1e-26*tBH*c.year2Seconds) := by
    intro x hx
    have h1 := harmonic_le_plateau x (mx/(sigv*1e-26)/tBH/c.year2Seconds) hx hrhoc
    calc x*(mx/(sigv*1e-26)/tBH/c.year2Seconds)/
          (x + mx/(sigv*1e-26)/tBH/c.year2Seconds)/mx
        ≤ (mx/(sigv*1e-26)/tBH/c.year2Seconds)/mx := (div_le_div_right hmx).mpr h1
      _ = 1/(sigv*1e-26*tBH*c.year2Seconds) := by
          field_simp
          ring
  simp only [nxSpike]
  split
  · positivity
  · split
    · exact key _ (rhoPrime_nonneg c r (massBH MG eta) rhosMW (get_rs c MG rsMW)
        hk hN hr hrhos hrs)
    · exact key _ (rhox_pos r rhosMW (get_rs c MG rsMW) hr hrhos hrs).le

theorem claim3_witness :
    nxSpike consts0 1 1 MG0 (some 1) 1e9 184 24.42 24.3856 ≤
      1/(1*1e-26*1e9*consts0.year2Seconds) :=
  (claim3_annihilation_cap consts0 1 1 MG0 1 1e9 184 24.42 24.3856
    (by norm_num) (by norm_num) (by norm_num) (by norm_num)
    (by rw [show consts0.year2Seconds = 3.1536e7 from rfl]; norm_num)
    (by rw [show consts0.kpc2cm = 3.0857e21 from rfl]; norm_num)
    (by norm_num)
    (by rw [get_rs_MG0]; norm_num)
    (by rw [massBH_MG0]; exact N0_pos.le)).2

/-- Lower bound for the spike density at `r = 1e-7` kpc in the `consts0` scenario:
the point lies in the inner `ri ≤ r < rh` regime and the density is large. -/
theorem rhoP0_lb : 3.9e11 ≤ rhoPrime consts0 1e-7 7e7 184 24.42 := by
  unfold rhoPrime
  rw [show radiusSchwarzchild consts0 7e7 = Rs0 from rfl]
  rw [if_pos ⟨by linarith [Rs0_ub], by rw [rh_val]; norm_num⟩]
  have hcube : 0.39 ≤ (1 - 4*Rs0/1e-7)^3 := by
    have ha : (0.73288:ℝ) ≤ 1 - 4*Rs0/1e-7 := by
      have : 4*Rs0/1e-7 ≤ 0.26712 := by
        rw [div_le_iff (by norm_num : (0:ℝ) < 1e-7)]
        linarith [Rs0_ub]
      linarith
    calc (0.39:ℝ) ≤ 0.73288^3 := by norm_num
      _ ≤ (1 - 4*Rs0/1e-7)^3 := pow_le_pow_left (by norm_num) ha 3
  have hrpow : 1 ≤ (rh/1e-7) ^ ((3:ℝ)/2) := by
    refine le_rpow_of_pow_le 3 2 (by rw [rh_val]; norm_num) (by norm_num)
      (by norm_num) (by norm_num) ?_
    rw [rh_val]
    norm_num
  have hk3 : consts0.kpc2cm^3 ≤ 2.9382e64 := by
    rw [show consts0.kpc2cm = 3.0857e21 from rfl]
    norm_num
  have hk3pos : 0 < consts0.kpc2cm^3 := by
    rw [show consts0.kpc2cm = 3.0857e21 from rfl]
    norm_num
  have hprod : 1.17e76 ≤
      normN consts0 7e7/rh ^ ((3:ℝ)/2)*(1 - 4*Rs0/1e-7)^3*(rh/1e-7) ^ ((3:ℝ)/2) := by
    have h1 : 3e76*0.39 ≤ normN consts0 7e7/rh ^ ((3:ℝ)/2)*(1 - 4*Rs0/1e-7)^3 :=
      mul_le_mul rhoN0_lb hcube (by norm_num) (le_trans (by norm_num) rhoN0_lb)
    calc (1.17e76:ℝ) = 3e76*0.39*1 := by norm_num
      _ ≤ normN consts0 7e7/rh ^ ((3:ℝ)/2)*(1 - 4*Rs0/1e-7)^3*(rh/1e-7) ^ ((3:ℝ)/2) :=
          mul_le_mul h1 hrpow (by norm_num) (le_trans (by norm_num) h1)
  calc (3.9e11:ℝ) ≤ 1.17e76/2.9382e64 := by norm_num
    _ ≤ 1.17e76/consts0.kpc2cm^3 :=
        (div_le_div_left (by norm_num) (by norm_num) hk3pos).mpr hk3
    _ ≤ normN consts0 7e7/rh ^ ((3:ℝ)/2)*(1 - 4*Rs0/1e-7)^3*
          (rh/1e-7) ^ ((3:ℝ)/2)/consts0.kpc2cm^3 :=
        (div_le_div_right hk3pos).mpr hprod

/-- Claim C3 counterexample: at `r = 1e-7` kpc with `mx = 1`, `sigv = 1`,
`tBH = 1e9` the returned number density exceeds the claimed cap
`mx/(sigv*tBH*secondsPerYear)` by over twenty-five orders of magnitude. -/
theorem claim3_counterexample :
    dmNumberDensity consts0 1e-7 1 MG0 Flag.pyTrue (some 1) 1e9 184 24.42 24.3856 =
      Except.ok (nxSpike consts0 1e-7 1 MG0 (some 1) 1e9 184 24.42 24.3856) ∧
    1/(1*1e9*consts0.year2Seconds) <
      nxSpike consts0 1e-7 1 MG0 (some 1) 1e9 184 24.42 24.3856 := by
  refine ⟨rfl, ?_⟩
  simp only [nxSpike, massBH_MG0, get_rs_MG0]
  rw [show radiusSchwarzchild consts0 7e7 = Rs0 from rfl]
  rw [if_neg (not_lt.mpr (by linarith [Rs0_ub] : 4*Rs0 ≤ 1e-7)),
    if_pos (by linarith [Rsp0_lb] : (1e-7:ℝ) < radiusSpike consts0 7e7 184 24.42)]
  have hY : consts0.year2Seconds = 3.1536e7 := rfl
  have hrc_lb : 3.1e9 ≤ (1:ℝ)/(1*1e-26)/1e9/consts0.year2Seconds := by
    rw [hY]
    norm_num
  have hrc_ub : (1:ℝ)/(1*1e-26)/1e9/consts0.year2Seconds ≤ 3.2e9 := by
    rw [hY]
    norm_num
  have hrcpos : 0 < (1:ℝ)/(1*1e-26)/1e9/consts0.year2Seconds := by
    rw [hY]
    norm_num
  have hP := rhoP0_lb
  have hdom : (1:ℝ)/(1*1e-26)/1e9/consts0.year2Seconds ≤
      rhoPrime consts0 1e-7 7e7 184 24.42 := by linarith
  have hhalf := half_plateau_le_harmonic (rhoPrime consts0 1e-7 7e7 184 24.42)
    ((1:ℝ)/(1*1e-26)/1e9/consts0.year2Seconds) hrcpos hdom
  rw [div_one]
  rw [hY] at hhalf hrc_lb ⊢
  have hcap : (1:ℝ)/(1*1e9*3.1536e7) < 1.5e9 := by norm_num
  linarith

theorem claim9_witness :
    diffSpectrum consts0 1 1 1 0 0 0 1 Flag.nonBool none 1 1 1 1 = Except.ok 0 := by
  apply (claim9_degenerate_geometry consts0 1 1 1 0 0 0 1 Flag.nonBool none 1 1 1 1).1
  unfold get_r
  rw [show (0:ℝ)^2 + 0^2 - 2*0*0*Real.cos 0 = 0 by ring, Real.sqrt_zero]
  norm_num

/-! Boundary values of the two piecewise spike formulas at `r = rh`, shared by
claim C4's theorem and counterexample. -/

/-- At `r = rh` the outer formula `rhoNp*(Rsp/r)^(7/3)` collapses to `rhoN`. -/
theorem outerFormula_at_rh (c : Consts) (mBH rhos rs : ℝ) (hk : 0 < c.kpc2cm)
    (hN : 0 < normN c mBH) (hrhos : 0 < rhos) (hrs : 0 < rs) :
    normN c mBH/rh ^ ((3:ℝ)/2)*(rh/radiusSpike c mBH rhos rs) ^ ((7:ℝ)/3)*
      (radiusSpike c mBH rhos rs/rh) ^ ((7:ℝ)/3) = normN c mBH/rh ^ ((3:ℝ)/2) := by
  have hrh : (0:ℝ) < rh := rh_pos
  have hRsp : 0 < radiusSpike c mBH rhos rs := radiusSpike_pos c mBH rhos rs hN hrhos hrs hk
  rw [mul_assoc, ← Real.mul_rpow (div_nonneg hrh.le hRsp.le) (div_nonneg hRsp.le hrh.le),
    show rh/radiusSpike c mBH rhos rs*(radiusSpike c mBH rhos rs/rh) = 1 by
      field_simp,
    Real.one_rpow, mul_one]

/-- At `r = rh` the inner formula is strictly below the outer one: the two
piecewise regimes do not match exactly, their ratio being `(1 - ri/rh)^3`. -/
theorem innerFormula_lt_outerFormula_at_rh (c : Consts) (mBH rhos rs : ℝ)
    (hk : 0 < c.kpc2cm) (hRs : 0 < radiusSchwarzchild c mBH)
    (hri_rh : 4*radiusSchwarzchild c mBH < rh) (hN : 0 < normN c mBH)
    (hrhos : 0 < rhos) (hrs : 0 < rs) :
    normN c mBH/rh ^ ((3:ℝ)/2)*(1 - 4*radiusSchwarzchild c mBH/rh)^3*
        (rh/rh) ^ ((3:ℝ)/2) <
      normN c mBH/rh ^ ((3:ℝ)/2)*(rh/radiusSpike c mBH rhos rs) ^ ((7:ℝ)/3)*
        (radiusSpike c mBH rhos rs/rh) ^ ((7:ℝ)/3) := by
  have hrh : (0:ℝ) < rh := rh_pos
  rw [outerFormula_at_rh c mBH rhos rs hk hN hrhos hrs, div_self hrh.ne',
    Real.one_rpow, mul_one]
  have hA : 0 < normN c mBH/rh ^ ((3:ℝ)/2) :=
    div_pos hN (Real.rpow_pos_of_pos hrh _)
  have hfrac : 0 < 4*radiusSchwarzchild c mBH/rh := by positivity
  have hfrac1 : 4*radiusSchwarzchild c mBH/rh < 1 := (div_lt_one hrh).mpr hri_rh
  have hcube : (1 - 4*radiusSchwarzchild c mBH/rh)^3 < 1 :=
    pow_lt_one₀ (by linarith) (by linarith) (by norm_num)
  calc normN c mBH/rh ^ ((3:ℝ)/2)*(1 - 4*radiusSchwarzchild c mBH/rh)^3
      < normN c mBH/rh ^ ((3:ℝ)/2)*1 := mul_lt_mul_of_pos_left hcube hA
    _ = normN c mBH/rh ^ ((3:ℝ)/2) := mul_one _

/-- Claim C4 amended: in the no-annihilation spike profile, continuity at `r = ri`
holds (the value from above tends to 0, matching the exact zero below `ri`), but
at `r = rh` the two piecewise formulas are not equal: the outer formula evaluates
to `rhoN` while the inner one evaluates to `rhoN*(1 - ri/rh)^3 < rhoN` — they agree
only within the tolerance `(1 - ri/rh)^3 ≈ 1`, not exactly. -/
theorem claim4_boundary_behavior (c : Consts) (mBH rhos rs : ℝ)
    (hk : 0 < c.kpc2cm) (hRs : 0 < radiusSchwarzchild c mBH)
    (hri_rh : 4*radiusSchwarzchild c mBH < rh) (hN : 0 < normN c mBH)
    (hrhos : 0 < rhos) (hrs : 0 < rs) :
    Filter.Tendsto (fun r => rhoPrime c r mBH rhos rs)
      (nhdsWithin (4*radiusSchwarzchild c mBH)
        (Set.Ioi (4*radiusSchwarzchild c mBH))) (nhds 0) ∧
    normN c mBH/rh ^ ((3:ℝ)/2)*(rh/radiusSpike c mBH rhos rs) ^ ((7:ℝ)/3)*
        (radiusSpike c mBH rhos rs/rh) ^ ((7:ℝ)/3) = normN c mBH/rh ^ ((3:ℝ)/2) ∧
    normN c mBH/rh ^ ((3:ℝ)/2)*(1 - 4*radiusSchwarzchild c mBH/rh)^3*
        (rh/rh) ^ ((3:ℝ)/2) <
      normN c mBH/rh ^ ((3:ℝ)/2)*(rh/radiusSpike c mBH rhos rs) ^ ((7:ℝ)/3)*
        (radiusSpike c mBH rhos rs/rh) ^ ((7:ℝ)/3) := by
  refine ⟨?_, outerFormula_at_rh c mBH rhos rs hk hN hrhos hrs,
    innerFormula_lt_outerFormula_at_rh c mBH rhos rs hk hRs hri_rh hN hrhos hrs⟩
  have hri : 0 < 4*radiusSchwarzchild c mBH := by positivity
  have hrine : 4*radiusSchwarzchild c mBH ≠ 0 := hri.ne'
  have hmem : Set.Ioo (4*radiusSchwarzchild c mBH) rh ∈
      nhdsWithin (4*radiusSchwarzchild c mBH)
        (Set.Ioi (4*radiusSchwarzchild c mBH)) :=
    Ioo_mem_nhdsWithin_Ioi' hri_rh
  have heq : Set.EqOn (fun r => rhoPrime c r mBH rhos rs)
      (fun r => normN c mBH/rh ^ ((3:ℝ)/2)*(1 - 4*radiusSchwarzchild c mBH/r)^3*
        (rh/r) ^ ((3:ℝ)/2)/c.kpc2cm^3)
      (Set.Ioo (4*radiusSchwarzchild c mBH) rh) := by
    intro r hrmem
    simp only [rhoPrime]
    rw [if_pos ⟨hrmem.1.le, hrmem.2⟩]
  have hcont : ContinuousAt
      (fun r : ℝ => normN c mBH/rh ^ ((3:ℝ)/2)*(1 - 4*radiusSchwarzchild c mBH/r)^3*
        (rh/r) ^ ((3:ℝ)/2)/c.kpc2cm^3) (4*radiusSchwarzchild c mBH) := by
    apply ContinuousAt.div_const
    apply ContinuousAt.mul
    · exact continuousAt_const.mul
        ((continuousAt_const.sub (continuousAt_const.div continuousAt_id hrine)).pow 3)
    · exact (Real.continuousAt_rpow_const _ _ (Or.inr (by norm_num))).comp
        (continuousAt_const.div continuousAt_id hrine)
  have hval : normN c mBH/rh ^ ((3:ℝ)/2)*
      (1 - 4*radiusSchwarzchild c mBH/(4*radiusSchwarzchild c mBH))^3*
      (rh/(4*radiusSchwarzchild c mBH)) ^ ((3:ℝ)/2)/c.kpc2cm^3 = 0 := by
    rw [div_self hrine]
    ring
  have h2 : Filter.Tendsto
      (fun r : ℝ => normN c mBH/rh ^ ((3:ℝ)/2)*(1 - 4*radiusSchwarzchild c mBH/r)^3*
        (rh/r) ^ ((3:ℝ)/2)/c.kpc2cm^3)
      (nhdsWithin (4*radiusSchwarzchild c mBH)
        (Set.Ioi (4*radiusSchwarzchild c mBH)))
      (nhds (normN c mBH/rh ^ ((3:ℝ)/2)*
        (1 - 4*radiusSchwarzchild c mBH/(4*radiusSchwarzchild c mBH))^3*
        (rh/(4*radiusSchwarzchild c mBH)) ^ ((3:ℝ)/2)/c.kpc2cm^3)) :=
    hcont.continuousWithinAt
  rw [hval] at h2
  exact Filter.Tendsto.congr' (Filter.eventuallyEq_of_mem hmem heq).symm h2

/-- Claim C4 counterexample: at `mBH = 7e7`, `rhos = 184`, `rs = 24.42` over
`consts0`, the inner and outer formulas evaluated at `r = rh` differ — the exact
equality asserted by the claim fails. -/
theorem claim4_counterexample :
    normN consts0 7e7/rh ^ ((3:ℝ)/2)*(1 - 4*radiusSchwarzchild consts0 7e7/rh)^3*
        (rh/rh) ^ ((3:ℝ)/2) ≠
      normN consts0 7e7/rh ^ ((3:ℝ)/2)*
        (rh/radiusSpike consts0 7e7 184 24.42) ^ ((7:ℝ)/3)*
        (radiusSpike consts0 7e7 184 24.42/rh) ^ ((7:ℝ)/3) :=
  ne_of_lt (innerFormula_lt_outerFormula_at_rh consts0 7e7 184 24.42
    (by rw [show consts0.kpc2cm = 3.0857e21 from rfl]; norm_num)
    Rs0_pos
    (by rw [show radiusSchwarzchild consts0 7e7 = Rs0 from rfl, rh_val]
        linarith [Rs0_ub])
    N0_pos (by norm_num) (by norm_num))

theorem claim4_witness :
    normN consts0 7e7/rh ^ ((3:ℝ)/2)*(1 - 4*radiusSchwarzchild consts0 7e7/rh)^3*
        (rh/rh) ^ ((3:ℝ)/2) <
      normN consts0 7e7/rh ^ ((3:ℝ)/2)*
        (rh/radiusSpike consts0 7e7 184 24.42) ^ ((7:ℝ)/3)*
        (radiusSpike consts0 7e7 184 24.42/rh) ^ ((7:ℝ)/3) :=
  (claim4_boundary_behavior consts0 7e7 184 24.42
    (by rw [show consts0.kpc2cm = 3.0857e21 from rfl]; norm_num)
    Rs0_pos
    (by rw [show radiusSchwarzchild consts0 7e7 = Rs0 from rfl, rh_val]
        linarith [Rs0_ub])
    N0_pos (by norm_num) (by norm_num)).2.2

/-! Exact value of the outer spike density at the spike radius, the key algebra
behind claim C10: the spike-side density at `Rsp` is `rhos*rs/Rsp` (in MeV/cm^3)
while the NFW side is smaller by the factor `(1 + Rsp/rs)^2`. -/

/-- Identity `Rsp^(4/3) = B*rh^(5/6)` where `B` is the base of `radiusSpike`. -/
theorem radiusSpike_rpow43 (c : Consts) (mBH rhos rs : ℝ) (hk : 0 < c.kpc2cm)
    (hN : 0 < normN c mBH) (hrhos : 0 < rhos) (hrs : 0 < rs) :
    radiusSpike c mBH rhos rs ^ ((4:ℝ)/3) =
      normN c mBH/(rhos*c.kpc2cm^3)/rs*rh ^ ((5:ℝ)/6) := by
  have hB : 0 < normN c mBH/(rhos*c.kpc2cm^3)/rs := by positivity
  unfold radiusSpike
  rw [Real.mul_rpow (Real.rpow_nonneg hB.le _) (Real.rpow_nonneg rh_pos.le _),
    ← Real.rpow_mul hB.le, ← Real.rpow_mul rh_pos.le,
    show ((3:ℝ)/4)*((4:ℝ)/3) = 1 by norm_num,
    show ((5:ℝ)/8)*((4:ℝ)/3) = (5:ℝ)/6 by norm_num,
    Real.rpow_one]

/-- The outer formula `rhoN*(rh/Rsp)^(7/3)` divided by `kpc2cm^3` equals
`rhos*rs/Rsp` exactly: the spike radius is defined as the radius where the outer
power law meets the inner-NFW approximation `rhos*rs/r`. -/
theorem rhoNp_value (c : Consts) (mBH rhos rs : ℝ) (hk : 0 < c.kpc2cm)
    (hN : 0 < normN c mBH) (hrhos : 0 < rhos) (hrs : 0 < rs) :
    normN c mBH/rh ^ ((3:ℝ)/2)*(rh/radiusSpike c mBH rhos rs) ^ ((7:ℝ)/3)/
      c.kpc2cm^3 = rhos*rs/radiusSpike c mBH rhos rs := by
  have hrh : (0:ℝ) < rh := rh_pos
  have hRsp : 0 < radiusSpike c mBH rhos rs := radiusSpike_pos c mBH rhos rs hN hrhos hrs hk
  have e1 : (rh/radiusSpike c mBH rhos rs) ^ ((7:ℝ)/3) =
      rh ^ ((7:ℝ)/3)/radiusSpike c mBH rhos rs ^ ((7:ℝ)/3) :=
    Real.div_rpow hrh.le hRsp.le _
  have e2 : rh ^ ((7:ℝ)/3) = rh ^ ((3:ℝ)/2)*rh ^ ((5:ℝ)/6) := by
    rw [← Real.rpow_add hrh]
    norm_num
  have e3 : radiusSpike c mBH rhos rs ^ ((7:ℝ)/3) =
      normN c mBH/(rhos*c.kpc2cm^3)/rs*rh ^ ((5:ℝ)/6)*radiusSpike c mBH rhos rs := by
    rw [show ((7:ℝ)/3) = (4:ℝ)/3 + 1 by norm_num, Real.rpow_add hRsp, Real.rpow_one,
      radiusSpike_rpow43 c mBH rhos rs hk hN hrhos hrs]
  rw [e1, e2, e3]
  have h32 : (0:ℝ) < rh ^ ((3:ℝ)/2) := Real.rpow_pos_of_pos hrh _
  have h56 : (0:ℝ) < rh ^ ((5:ℝ)/6) := Real.rpow_pos_of_pos hrh _
  have hne1 : rh ^ ((3:ℝ)/2) ≠ 0 := h32.ne'
  have hne2 : rh ^ ((5:ℝ)/6) ≠ 0 := h56.ne'
  have hne3 : radiusSpike c mBH rhos rs ≠ 0 := hRsp.ne'
  have hne4 : c.kpc2cm ≠ 0 := hk.ne'
  have hne5 : rhos ≠ 0 := hrhos.ne'
  have hne6 : rs ≠ 0 := hrs.ne'
  have hne7 : normN c mBH ≠ 0 := hN.ne'
  field_simp
  ring

/-- Claim C10 (confirmed): in spike mode without annihilation the number density
switches from the spike power law to pure NFW exactly at `Rsp`; the spike-branch
value tends to `rhos*rs/Rsp/mx` as `r` approaches `Rsp` from below, the value at
`Rsp` is the NFW one, and the NFW value is strictly smaller (by `(1+Rsp/rs)^2`) —
a genuine jump discontinuity, unlike the matching at `ri` and `rh`. -/
theorem claim10_spike_radius_jump (c : Consts) (mx MG tBH rhosMW rsMW eta : ℝ)
    (hmx : 0 < mx) (hrhos : 0 < rhosMW) (hk : 0 < c.kpc2cm)
    (hrs : 0 < get_rs c MG rsMW) (hN : 0 < normN c (massBH MG eta))
    (hRs : 0 < radiusSchwarzchild c (massBH MG eta))
    (hri_rh : 4*radiusSchwarzchild c (massBH MG eta) < rh)
    (hrh_Rsp : rh < radiusSpike c (massBH MG eta) rhosMW (get_rs c MG rsMW)) :
    Filter.Tendsto (fun r => nxSpike c r mx MG none tBH rhosMW rsMW eta)
      (nhdsWithin (radiusSpike c (massBH MG eta) rhosMW (get_rs c MG rsMW))
        (Set.Iio (radiusSpike c (massBH MG eta) rhosMW (get_rs c MG rsMW))))
      (nhds (rhosMW*get_rs c MG rsMW/
        radiusSpike c (massBH MG eta) rhosMW (get_rs c MG rsMW)/mx)) ∧
    nxSpike c (radiusSpike c (massBH MG eta) rhosMW (get_rs c MG rsMW)) mx MG none
        tBH rhosMW rsMW eta =
      rhox (radiusSpike c (massBH MG eta) rhosMW (get_rs c MG rsMW)) rhosMW
        (get_rs c MG rsMW)/mx ∧
    rhox (radiusSpike c (massBH MG eta) rhosMW (get_rs c MG rsMW)) rhosMW
        (get_rs c MG rsMW)/mx <
      rhosMW*get_rs c MG rsMW/
        radiusSpike c (massBH MG eta) rhosMW (get_rs c MG rsMW)/mx := by
  have hrh : (0:ℝ) < rh := rh_pos
  have hRsp : 0 < radiusSpike c (massBH MG eta) rhosMW (get_rs c MG rsMW) :=
    radiusSpike_pos c (massBH MG eta) rhosMW (get_rs c MG rsMW) hN hrhos hrs hk
  have hri_Rsp : 4*radiusSchwarzchild c (massBH MG eta) <
      radiusSpike c (massBH MG eta) rhosMW (get_rs c MG rsMW) :=
    lt_trans hri_rh hrh_Rsp
  refine ⟨?_, ?_, ?_⟩
  · -- the left limit at Rsp
    have hmem : Set.Ioo rh (radiusSpike c (massBH MG eta) rhosMW (get_rs c MG rsMW)) ∈
        nhdsWithin (radiusSpike c (massBH MG eta) rhosMW (get_rs c MG rsMW))
          (Set.Iio (radiusSpike c (massBH MG eta) rhosMW (get_rs c MG rsMW))) :=
      Ioo_mem_nhdsWithin_Iio' hrh_Rsp
    have heq : Set.EqOn (fun r => nxSpike c r mx MG none tBH rhosMW rsMW eta)
        (fun r => normN c (massBH MG eta)/rh ^ ((3:ℝ)/2)*
          (rh/radiusSpike c (massBH MG eta) rhosMW (get_rs c MG rsMW)) ^ ((7:ℝ)/3)*
          (radiusSpike c (massBH MG eta) rhosMW (get_rs c MG rsMW)/r) ^ ((7:ℝ)/3)/
          c.kpc2cm^3/mx)
        (Set.Ioo rh (radiusSpike c (massBH MG eta) rhosMW (get_rs c MG rsMW))) := by
      intro r hrmem
      simp only [nxSpike]
      rw [if_neg (not_lt.mpr (lt_trans hri_rh hrmem.1).le), if_pos hrmem.2]
      unfold rhoPrime
      rw [if_neg (fun h => absurd h.2 (not_lt.mpr hrmem.1.le))]
    have hcont : ContinuousAt
        (fun r : ℝ => normN c (massBH MG eta)/rh ^ ((3:ℝ)/2)*
          (rh/radiusSpike c (massBH MG eta) rhosMW (get_rs c MG rsMW)) ^ ((7:ℝ)/3)*
          (radiusSpike c (massBH MG eta) rhosMW (get_rs c MG rsMW)/r) ^ ((7:ℝ)/3)/
          c.kpc2cm^3/mx)
        (radiusSpike c (massBH MG eta) rhosMW (get_rs c MG rsMW)) := by
      apply ContinuousAt.div_const
      apply ContinuousAt.div_const
      apply continuousAt_const.mul
      exact (Real.continuousAt_rpow_const _ _ (Or.inr (by norm_num))).comp
        (continuousAt_const.div continuousAt_id hRsp.ne')
    have hval : normN c (massBH MG eta)/rh ^ ((3:ℝ)/2)*
        (rh/radiusSpike c (massBH MG eta) rhosMW (get_rs c MG rsMW)) ^ ((7:ℝ)/3)*
        (radiusSpike c (massBH MG eta) rhosMW (get_rs c MG rsMW)/
          radiusSpike c (massBH MG eta) rhosMW (get_rs c MG rsMW)) ^ ((7:ℝ)/3)/
        c.kpc2cm^3/mx =
        rhosMW*get_rs c MG rsMW/
          radiusSpike c (massBH MG eta) rhosMW (get_rs c MG rsMW)/mx := by
      rw [div_self hRsp.ne', Real.one_rpow, mul_one,
        rhoNp_value c (massBH MG eta) rhosMW (get_rs c MG rsMW) hk hN hrhos hrs]
    have h2 : Filter.Tendsto
        (fun r : ℝ => normN c (massBH MG eta)/rh ^ ((3:ℝ)/2)*
          (rh/radiusSpike c (massBH MG eta) rhosMW (get_rs c MG rsMW)) ^ ((7:ℝ)/3)*
          (radiusSpike c (massBH MG eta) rhosMW (get_rs c MG rsMW)/r) ^ ((7:ℝ)/3)/
          c.kpc2cm^3/mx)
        (nhdsWithin (radiusSpike c (massBH MG eta) rhosMW (get_rs c MG rsMW))
          (Set.Iio (radiusSpike c (massBH MG eta) rhosMW (get_rs c MG rsMW))))
        (nhds (normN c (massBH MG eta)/rh ^ ((3:ℝ)/2)*
          (rh/radiusSpike c (massBH MG eta) rhosMW (get_rs c MG rsMW)) ^ ((7:ℝ)/3)*
          (radiusSpike c (massBH MG eta) rhosMW (get_rs c MG rsMW)/
            radiusSpike c (massBH MG eta) rhosMW (get_rs c MG rsMW)) ^ ((7:ℝ)/3)/
          c.kpc2cm^3/mx)) :=
      hcont.continuousWithinAt
    rw [hval] at h2
    exact Filter.Tendsto.congr' (Filter.eventuallyEq_of_mem hmem heq).symm h2
  · -- the value exactly at Rsp is the NFW one
    simp only [nxSpike]
    rw [if_neg (not_lt.mpr hri_Rsp.le), if_neg (lt_irrefl _)]
  · -- the jump: NFW at Rsp is strictly below the spike-side limit
    have hx : 0 < radiusSpike c (massBH MG eta) rhosMW (get_rs c MG rsMW)/
        get_rs c MG rsMW := div_pos hRsp hrs
    have heq2 : rhox (radiusSpike c (massBH MG eta) rhosMW (get_rs c MG rsMW))
        rhosMW (get_rs c MG rsMW) =
        rhosMW*get_rs c MG rsMW/
          radiusSpike c (massBH MG eta) rhosMW (get_rs c MG rsMW)/
          (1 + radiusSpike c (massBH MG eta) rhosMW (get_rs c MG rsMW)/
            get_rs c MG rsMW)^2 := by
      unfold rhox
      have h1 : (1 + radiusSpike c (massBH MG eta) rhosMW (get_rs c MG rsMW)/
          get_rs c MG rsMW) ≠ 0 := by positivity
      field_simp
      ring
    rw [heq2]
    refine (div_lt_div_right hmx).mpr ?_
    refine div_lt_self (by positivity) ?_
    exact one_lt_pow₀ (by linarith) (by norm_num)

theorem claim10_witness :
    rhox (radiusSpike consts0 (massBH MG0 24.3856) 184 (get_rs consts0 MG0 24.42))
        184 (get_rs consts0 MG0 24.42)/1 <
      184*get_rs consts0 MG0 24.42/
        radiusSpike consts0 (massBH MG0 24.3856) 184 (get_rs consts0 MG0 24.42)/1 :=
  (claim10_spike_radius_jump consts0 1 MG0 1e9 184 24.42 24.3856
    (by norm_num) (by norm_num)
    (by rw [show consts0.kpc2cm = 3.0857e21 from rfl]; norm_num)
    (by rw [get_rs_MG0]; norm_num)
    (by rw [massBH_MG0]; exact N0_pos)
    (by rw [massBH_MG0]; exact Rs0_pos)
    (by rw [massBH_MG0, show radiusSchwarzchild consts0 7e7 = Rs0 from rfl, rh_val]
        linarith [Rs0_ub])
    (by rw [massBH_MG0, get_rs_MG0, rh_val]
        linarith [Rsp0_lb])).2.2

/-! Claim C2: the redshifted-spectrum guard.  The code zeroes the contribution
when `Txp = (1+z)*Tx` reaches 200 MeV, not when the required neutrino energy
`Ev(Txp)` exceeds 200 MeV; since `Ev(Txp) ≥ Txp` the code's guard implies the
claimed one, but not conversely. -/

/-- Claim C2 amended: the unweighted redshifted spectrum is zero exactly when
`Tx' = (1+z)*Tx` reaches 200 MeV (a condition that forces the required neutrino
energy at `Tx'` to be at least 200 MeV, though zero is not returned merely because
`Ev' > 200`); otherwise the point spectrum is evaluated at `Tx'` and weighted by
`MG*dnG(m,z)/E(z)*rhoDotSFR(z)` with `MG = 10^m`. -/
theorem claim2_guard_on_redshifted_energy (c : Consts) (g : GalaxyModel)
    (z m Tx mx R l theta thetaCM : ℝ) (is_spike : Flag) (sigv : Option ℝ)
    (tBH rhosMW rsMW eta : ℝ) :
    ((1 + z)*Tx < 200 →
      dbdmSpectrumUnweighted c g z m Tx mx R l theta thetaCM is_spike sigv
          tBH rhosMW rsMW eta =
        (diffSpectrum c ((1 + z)*Tx) mx ((10:ℝ) ^ m) R l theta thetaCM is_spike sigv
            tBH rhosMW rsMW eta).map
          (fun s => (10:ℝ) ^ m*g.dnG m z/g.E z*g.rhoDotSFR z*s)) ∧
    (200 ≤ (1 + z)*Tx →
      dbdmSpectrumUnweighted c g z m Tx mx R l theta thetaCM is_spike sigv
        tBH rhosMW rsMW eta = Except.ok 0) ∧
    (200 ≤ (1 + z)*Tx → 0 < (1 + z)*Tx → 0 ≤ mx → Real.cos (thetaCM/2) ≠ 0 →
      200 ≤ snNuEenergy ((1 + z)*Tx) mx thetaCM) := by
  refine ⟨?_, ?_, ?_⟩
  · intro h
    unfold dbdmSpectrumUnweighted
    rw [if_pos h]
  · intro h
    unfold dbdmSpectrumUnweighted
    rw [if_neg (not_lt.mpr h)]
  · intro h200 hT hm hc
    unfold snNuEenergy
    have hc2pos : 0 < Real.cos (thetaCM/2)^2 :=
      lt_of_le_of_ne (sq_nonneg _) (Ne.symm (pow_ne_zero 2 hc))
    have hc2le : Real.cos (thetaCM/2)^2 ≤ 1 := Real.cos_sq_le_one _
    have hs : 1 ≤ Real.sqrt (1 + 2*(Real.cos (thetaCM/2)^2)*mx/((1 + z)*Tx)) := by
      refine (Real.le_sqrt' one_pos).mpr ?_
      have : 0 ≤ 2*(Real.cos (thetaCM/2)^2)*mx/((1 + z)*Tx) := by positivity
      nlinarith
    have h1 : (1 + z)*Tx/(Real.cos (thetaCM/2)^2) ≤
        (1 + z)*Tx*(1 + Real.sqrt (1 + 2*(Real.cos (thetaCM/2)^2)*mx/((1 + z)*Tx)))/
          2/(Real.cos (thetaCM/2)^2) := by
      refine (div_le_div_right hc2pos).mpr ?_
      rw [le_div_iff (by norm_num : (0:ℝ) < 2)]
      nlinarith
    have h2 : (1 + z)*Tx ≤ (1 + z)*Tx/(Real.cos (thetaCM/2)^2) := by
      rw [le_div_iff hc2pos]
      nlinarith
    linarith

theorem claim2_witness :
    dbdmSpectrumUnweighted consts0 g1 1 8 100 1 0 1 1 1 Flag.pyTrue none
      1e9 184 24.42 1 = Except.ok 0 :=
  (claim2_guard_on_redshifted_energy consts0 g1 1 8 100 1 0 1 1 1 Flag.pyTrue none
    1e9 184 24.42 1).2.1 (by norm_num)

/-- The required neutrino energy at `Tx = 100`, `mx = 10000`, `thetaCM = pi/2`. -/
theorem Ev0_eq : snNuEenergy 100 10000 (Real.pi/2) = 100*(1 + Real.sqrt 101) := by
  unfold snNuEenergy
  rw [show Real.pi/2/2 = Real.pi/4 by ring, Real.cos_pi_div_four,
    show ((Real.sqrt 2/2)^2 : ℝ) = 1/2 by
      rw [div_pow, Real.sq_sqrt (by norm_num : (0:ℝ) ≤ 2)]; norm_num,
    show (1 + 2*(1/2)*10000/100 : ℝ) = 101 by norm_num]
  ring

theorem Ev0_gt : 200 < snNuEenergy 100 10000 (Real.pi/2) := by
  rw [Ev0_eq]
  have h : 1 < Real.sqrt 101 :=
    (Real.lt_sqrt (by norm_num)).mpr (by norm_num)
  linarith

theorem Ev0_ub : snNuEenergy 100 10000 (Real.pi/2) ≤ 1200 := by
  rw [Ev0_eq]
  have h : Real.sqrt 101 ≤ 11 := (Real.sqrt_le_left (by norm_num)).mpr (by norm_num)
  linarith

/-- Claim C2 counterexample: at `z = 0`, `m = 10`, `Tx = 100`, `mx = 10000`,
`thetaCM = pi/2` the required neutrino energy exceeds 200 MeV, yet the returned
contribution is not zero (the code's guard tests `Tx' < 200`, which holds). -/
theorem claim2_counterexample :
    200 < snNuEenergy ((1 + 0)*100) 10000 (Real.pi/2) ∧
    dbdmSpectrumUnweighted consts0 g1 0 10 100 10000 0 1 (Real.pi/2) (Real.pi/2)
      Flag.pyTrue none 1e9 184 24.42 100 ≠ Except.ok 0 := by
  constructor
  · rw [show ((1:ℝ) + 0)*100 = 100 by norm_num]
    exact Ev0_gt
  · unfold dbdmSpectrumUnweighted
    rw [show ((1:ℝ) + 0)*100 = 100 by norm_num]
    rw [if_pos (by norm_num : (100:ℝ) < 200)]
    unfold diffSpectrum
    rw [show get_r 1 0 (Real.pi/2) = 1 by
      unfold get_r
      rw [show (1:ℝ)^2 + 0^2 - 2*1*0*Real.cos (Real.pi/2) = 1 by ring, Real.sqrt_one]]
    rw [if_pos (by norm_num : (1e-8:ℝ) ≤ 1)]
    simp only [dmNumberDensity, Except.map]
    rw [ne_eq, Except.ok.injEq]
    -- every factor of the returned product is positive
    have hMG : (10:ℝ)^(10:ℝ) = 1e10 := by
      rw [show (10:ℝ) = ((10:ℕ):ℝ) by norm_num, Real.rpow_natCast]
      norm_num
    have hmass : massBH ((10:ℝ)^(10:ℝ)) 100 = 7e7 := by
      rw [hMG]
      unfold massBH
      rw [show (100*1e10/1e12 : ℝ) = 1 by norm_num, Real.one_rpow]
      norm_num
    have hnx : 0 < nxSpike consts0 1 10000 ((10:ℝ)^(10:ℝ)) none 1e9 184 24.42 100 := by
      refine nxSpike_pos_noAnn consts0 1 10000 ((10:ℝ)^(10:ℝ)) 1e9 184 24.42 100
        (by norm_num) (by norm_num)
        (by rw [show consts0.kpc2cm = 3.0857e21 from rfl]; norm_num) ?_ ?_ ?_ ?_
      · unfold get_rs
        have hMmw : consts0.Mmw = 1e12/24.3856 := rfl
        rw [hMG, hMmw]
        positivity
      · rw [hmass]
        exact N0_pos
      · rw [hmass]
        exact Rs0_pos
      · rw [hmass, show radiusSchwarzchild consts0 7e7 = Rs0 from rfl]
        linarith [Rs0_ub]
    have hEvpos : 0 < snNuEenergy 100 10000 (Real.pi/2) := lt_trans (by norm_num) Ev0_gt
    have hflux : 0 < supernovaNuFlux consts0 (snNuEenergy 100 10000 (Real.pi/2)) 1 := by
      refine supernovaNuFlux_pos consts0 _ 1
        (by rw [show consts0.Lv = 3e52 from rfl]; norm_num)
        (by rw [show consts0.erg2MeV = 6.2415e5 from rfl]; norm_num)
        (by rw [show consts0.kpc2cm = 3.0857e21 from rfl]; norm_num)
        (by norm_num) hEvpos ?_
      have h1 : snNuEenergy 100 10000 (Real.pi/2)/6.26 ≤ 1200/6.26 :=
        (div_le_div_right (by norm_num)).mpr Ev0_ub
      linarith
    have hdEv : 0 < dEv 100 10000 (Real.pi/2) := by
      refine dEv_pos (by norm_num) (by norm_num) ?_
      rw [show Real.pi/2/2 = Real.pi/4 by ring, Real.cos_pi_div_four]
      positivity
    have hv : 0 < vBDM 100 10000 := vBDM_pos (by norm_num) (by norm_num)
    have hdsig : 0 < dsigma0 (snNuEenergy 100 10000 (Real.pi/2)) (Real.pi/2) :=
      dsigma0_pos _ _
    have hinner : 0 < (1:ℝ)^2*Real.sin (Real.pi/2)*Real.sin (Real.pi/2)*
        nxSpike consts0 1 10000 ((10:ℝ)^(10:ℝ)) none 1e9 184 24.42 100*
        dsigma0 (snNuEenergy 100 10000 (Real.pi/2)) (Real.pi/2)*
        supernovaNuFlux consts0 (snNuEenergy 100 10000 (Real.pi/2)) 1*
        (dEv 100 10000 (Real.pi/2)*vBDM 100 10000) := by
      rw [Real.sin_pi_div_two]
      positivity
    have houter : 0 < (10:ℝ)^(10:ℝ)*g1.dnG 10 0/g1.E 0*g1.rhoDotSFR 0*
        ((1:ℝ)^2*Real.sin (Real.pi/2)*Real.sin (Real.pi/2)*
          nxSpike consts0 1 10000 ((10:ℝ)^(10:ℝ)) none 1e9 184 24.42 100*
          dsigma0 (snNuEenergy 100 10000 (Real.pi/2)) (Real.pi/2)*
          supernovaNuFlux consts0 (snNuEenergy 100 10000 (Real.pi/2)) 1*
          (dEv 100 10000 (Real.pi/2)*vBDM 100 10000)) := by
      rw [show g1.dnG 10 0 = 1 from rfl, show g1.E 0 = 1 from rfl,
        show g1.rhoDotSFR 0 = 1 from rfl]
      have h10 : (0:ℝ) < (10:ℝ)^(10:ℝ) := Real.rpow_pos_of_pos (by norm_num) _
      positivity
    exact ne_of_gt houter

end Doom
